import Mathlib

set_option maxRecDepth 4000

/-!
Shallow embedding of the concurrent racing game in `src/main.py`.

The shared mutable state of `RacingGame` is modelled as an immutable
structure; each critical section of the Python code (the body of the
`with self.state_lock:` blocks) becomes a pure state-transformer, and the
sequential interleaving of lock-held sections becomes function composition.
`pygame.Rect` coordinates are integers (pygame truncates float arguments
toward zero), while car positions are Python floats, modelled as rationals.
Time values (`time.time()` results, delta times, random multipliers) are
passed in as rational parameters.
-/

namespace Racing

/-- WINDOW_WIDTH = 1000 -/
def WINDOW_WIDTH : ℤ := 1000
/-- WINDOW_HEIGHT = 600 -/
def WINDOW_HEIGHT : ℤ := 600
/-- TRACK_LANES = 4 -/
def TRACK_LANES : ℤ := 4
/-- LANE_HEIGHT = WINDOW_HEIGHT // TRACK_LANES = 150 -/
def LANE_HEIGHT : ℤ := WINDOW_HEIGHT / TRACK_LANES
/-- START_X = 50 -/
def START_X : ℤ := 50
/-- FINISH_LINE_X = WINDOW_WIDTH - 100 = 900 -/
def FINISH_LINE_X : ℤ := WINDOW_WIDTH - 100
/-- CAR_WIDTH = 40 -/
def CAR_WIDTH : ℤ := 40
/-- CAR_HEIGHT = 25 -/
def CAR_HEIGHT : ℤ := 25
/-- OBSTACLE_SIZE = 30 -/
def OBSTACLE_SIZE : ℤ := 30
/-- POWERUP_SIZE = 25 -/
def POWERUP_SIZE : ℤ := 25
/-- NUM_CARS = 4 -/
def NUM_CARS : ℕ := 4
/-- BASE_SPEED = 2 -/
def BASE_SPEED : ℚ := 2

/-- Truncation toward zero, as applied by `pygame.Rect` to float
coordinates (`Int` division truncates toward zero, like Python's `int`). -/
def pyTrunc (q : ℚ) : ℤ := q.num / (q.den : ℤ)

/-- A pygame rectangle: x, y, width, height. -/
structure PyRect where
  x : ℤ
  y : ℤ
  w : ℤ
  h : ℤ
deriving DecidableEq, Repr

/-- pygame `Rect.colliderect`: strict overlap on both axes (touching edges
do not collide). -/
def colliderect (a b : PyRect) : Bool :=
  decide (a.x < b.x + b.w) && decide (b.x < a.x + a.w) &&
  decide (a.y < b.y + b.h) && decide (b.y < a.y + a.h)

/-- The `Car` class: one race participant. `thread` is not modelled on the
car; spawned workers are tracked on the game state instead. -/
structure Car where
  id : ℕ
  lane : ℤ
  x : ℚ
  y : ℤ
  base_speed : ℚ
  current_speed : ℚ
  finished : Bool
  finish_time : Option ℚ
  is_player : Bool
  hasSpeedBoost : Bool
  speedBoostTimer : ℚ
  hasShield : Bool
  shieldTimer : ℚ
deriving DecidableEq, Repr

/-- `Car.get_rect`: pygame Rect of the car (x truncated toward zero). -/
def Car.get_rect (c : Car) : PyRect :=
  ⟨pyTrunc c.x, c.y, CAR_WIDTH, CAR_HEIGHT⟩

/-- `Car.powerUpType`: apply a power-up effect to the car. -/
def Car.powerUpType (c : Car) (t : String) : Car :=
  if t = "speed" then
    { c with hasSpeedBoost := true, speedBoostTimer := 3/2,
             current_speed := c.base_speed * 2 }
  else if t = "shield" then
    { c with hasShield := true, shieldTimer := 3 }
  else c

/-- `Car.updatePowerUps`: age out power-up timers by `deltaTime`. -/
def Car.updatePowerUps (c : Car) (deltaTime : ℚ) : Car :=
  let c1 :=
    if c.hasSpeedBoost then
      let t := c.speedBoostTimer - deltaTime
      if t ≤ 0 then
        { c with speedBoostTimer := t, hasSpeedBoost := false,
                 current_speed := c.base_speed }
      else { c with speedBoostTimer := t }
    else c
  if c1.hasShield then
    let t := c1.shieldTimer - deltaTime
    if t ≤ 0 then { c1 with shieldTimer := t, hasShield := false }
    else { c1 with shieldTimer := t }
  else c1

/-- The `Obstacle` class. -/
structure Obstacle where
  x : ℤ
  lane : ℤ
  y : ℤ
  active : Bool
deriving DecidableEq, Repr

/-- `Obstacle.__init__`. -/
def mkObstacle (x lane : ℤ) : Obstacle :=
  ⟨x, lane, lane * LANE_HEIGHT + (LANE_HEIGHT - OBSTACLE_SIZE) / 2, true⟩

/-- `Obstacle.getRectangle`. -/
def Obstacle.getRectangle (o : Obstacle) : PyRect :=
  ⟨o.x, o.y, OBSTACLE_SIZE, OBSTACLE_SIZE⟩

/-- The `PowerUp` class (`type` is the Python string "speed" or "shield"). -/
structure PowerUp where
  x : ℤ
  lane : ℤ
  y : ℤ
  type : String
  active : Bool
deriving DecidableEq, Repr

/-- `PowerUp.__init__`. -/
def mkPowerUp (x lane : ℤ) (t : String) : PowerUp :=
  ⟨x, lane, lane * LANE_HEIGHT + (LANE_HEIGHT - POWERUP_SIZE) / 2, t, true⟩

/-- `PowerUp.getRectangle`. -/
def PowerUp.getRectangle (p : PowerUp) : PyRect :=
  ⟨p.x, p.y, POWERUP_SIZE, POWERUP_SIZE⟩

/-- Shared game state of `RacingGame`. `pause_event` is `pause_event.is_set()`;
`winner` holds the winning car's id (the Python reference to the car object);
`workers` lists the ids of the cars for which a movement thread has been
spawned and is running. -/
structure RacingGame where
  pause_event : Bool
  race_active : Bool
  winner_declared : Bool
  cars : List Car
  obstacles : List Obstacle
  powerups : List PowerUp
  winner : Option ℕ
  race_start_time : Option ℚ
  game_state : String
  workers : List ℕ
deriving DecidableEq, Repr

/-- The `for obstacle in self.obstacles:` loop of the collision section:
the car rect is computed once (before any pull-back) and every active
colliding obstacle is deactivated; an unshielded car is pulled back by
half the attempted displacement per hit. Returns the updated obstacle
list and the car's x. -/
def obstacleLoop (rect : PyRect) (shield : Bool) (move : ℚ) :
    List Obstacle → ℚ → List Obstacle × ℚ
  | [], x => ([], x)
  | o :: rest, x =>
    if o.active && colliderect rect o.getRectangle then
      let x1 := if shield then x else x - move * (1/2)
      let r := obstacleLoop rect shield move rest x1
      ({ o with active := false } :: r.1, r.2)
    else
      let r := obstacleLoop rect shield move rest x
      (o :: r.1, r.2)

/-- The `for powerup in self.powerups:` loop: every active colliding
pickup is deactivated and its effect applied to the car (the rect is the
stale rect from the full attempted displacement). -/
def powerupLoop (rect : PyRect) : List PowerUp → Car → List PowerUp × Car
  | [], c => ([], c)
  | p :: rest, c =>
    if p.active && colliderect rect p.getRectangle then
      let r := powerupLoop rect rest (c.powerUpType p.type)
      ({ p with active := false } :: r.1, r.2)
    else
      let r := powerupLoop rect rest c
      (p :: r.1, r.2)

/-- The car's x after the movement and the obstacle pull-backs of one step
(the value the finish-line check reads). -/
def steppedX (g : RacingGame) (c : Car) (move : ℚ) : ℚ :=
  (obstacleLoop ⟨pyTrunc (c.x + move), c.y, CAR_WIDTH, CAR_HEIGHT⟩
    c.hasShield move g.obstacles (c.x + move)).2

/-- The shared-state mutation of one movement step for car index `i`
(current car value `c`): forward move, obstacle collisions, power-up
collisions, finish-line check and winner declaration. This is the body
common to `car_movement_thread`'s lock-held section and the forward-move
part of `handle_player_input`. -/
def applyMove (g : RacingGame) (i : ℕ) (c : Car) (move now : ℚ) : RacingGame :=
  let rect : PyRect := ⟨pyTrunc (c.x + move), c.y, CAR_WIDTH, CAR_HEIGHT⟩
  let ob := obstacleLoop rect c.hasShield move g.obstacles (c.x + move)
  let pw := powerupLoop rect g.powerups { c with x := ob.2 }
  let c1 := pw.2
  let g1 := { g with obstacles := ob.1, powerups := pw.1 }
  if (FINISH_LINE_X : ℚ) ≤ c1.x ∧ c1.finished = false then
    let c2 := { c1 with finished := true,
                        finish_time := some (now - g.race_start_time.getD 0) }
    if g.winner_declared = false then
      { g1 with cars := g1.cars.set i c2, winner_declared := true,
                winner := some c2.id, game_state := "finished" }
    else { g1 with cars := g1.cars.set i c2 }
  else { g1 with cars := g1.cars.set i c1 }

/-- The lock-held section of one iteration of `car_movement_thread`:
re-check `race_active` first (break without touching state if cleared),
then apply the movement step. The boolean is `true` when the loop breaks. -/
def car_movement_step (g : RacingGame) (i : ℕ) (move now : ℚ) :
    RacingGame × Bool :=
  if g.race_active = false then (g, true)
  else
    match g.cars[i]? with
    | none => (g, false)
    | some c => (applyMove g i c move now, false)

/-- One full iteration of the `car_movement_thread` loop body for car `i`:
power-up timer aging (outside the lock), displacement computation from the
sampled multiplier, then the lock-held section. -/
def car_movement_iter (g : RacingGame) (i : ℕ) (dt mult now : ℚ) :
    RacingGame × Bool :=
  match g.cars[i]? with
  | none => (g, false)
  | some c =>
    let c1 := c.updatePowerUps dt
    car_movement_step { g with cars := g.cars.set i c1 }
      i (c1.current_speed * mult) now

/-- Lane change: sets `lane` and recomputes `y` as the source does. -/
def setLane (c : Car) (l : ℤ) : Car :=
  { c with lane := l, y := l * LANE_HEIGHT + (LANE_HEIGHT - CAR_HEIGHT) / 2 }

/-- The K_UP branch of `handle_player_input`: move the player car one lane
up when `lane > 0`. -/
def laneUpStage (g : RacingGame) (kUp : Bool) : RacingGame :=
  if kUp then
    match g.cars[0]? with
    | some p =>
      if 0 < p.lane then
        { g with cars := g.cars.set 0 (setLane p (p.lane - 1)) }
      else g
    | none => g
  else g

/-- The K_DOWN branch of `handle_player_input`: move the player car one
lane down when `lane < TRACK_LANES - 1`. -/
def laneDownStage (g : RacingGame) (kDown : Bool) : RacingGame :=
  if kDown then
    match g.cars[0]? with
    | some p =>
      if p.lane < TRACK_LANES - 1 then
        { g with cars := g.cars.set 0 (setLane p (p.lane + 1)) }
      else g
    | none => g
  else g

/-- `RacingGame.handle_player_input` with the pressed keys as parameters
(`kRight`, `kUp`, `kDown` for K_RIGHT, K_UP, K_DOWN). -/
def handle_player_input (g : RacingGame) (kRight kUp kDown : Bool)
    (dt now : ℚ) : RacingGame :=
  if g.game_state ≠ "racing" ∨ g.race_active = false then g
  else
    match g.cars[0]? with
    | none => g
    | some pc0 =>
      if pc0.finished then g
      else
        let pc := pc0.updatePowerUps dt
        let g1 := { g with cars := g.cars.set 0 pc }
        let g2 := if kRight then
            applyMove g1 0 pc (pc.current_speed * (3/2)) now
          else g1
        laneDownStage (laneUpStage g2 kUp) kDown

/-- `RacingGame.toggle_pause`: the whole body is guarded by
`game_state == "racing"`. -/
def toggle_pause (g : RacingGame) : RacingGame :=
  if g.game_state = "racing" then
    if g.pause_event then
      { g with pause_event := false, game_state := "paused" }
    else
      { g with pause_event := true, game_state := "racing" }
  else g

/-- Ids of the non-player cars (those for which `start_race` spawns a
thread). -/
def nonPlayerIds (g : RacingGame) : List ℕ :=
  (g.cars.filter (fun c => !c.is_player)).map Car.id

/-- `RacingGame.start_race`: unguarded; sets phase/flags/start time and
spawns one worker per non-player car (appended to the running workers). -/
def start_race (g : RacingGame) (now : ℚ) : RacingGame :=
  { g with game_state := "racing", race_active := true,
           winner_declared := false, race_start_time := some now,
           pause_event := true, workers := g.workers ++ nonPlayerIds g }

/-- The SPACE-key dispatch in `RacingGame.run`: `start_race` is invoked
only when `game_state == "menu"`. -/
def start_key (g : RacingGame) (now : ℚ) : RacingGame :=
  if g.game_state = "menu" then start_race g now else g

/-- Randomness drawn by `initialize_game_objects`: car base speeds,
obstacle positions/lanes, power-up positions/lanes/types. -/
structure InitParams where
  speeds : List ℚ
  obstacleSpec : List (ℤ × ℤ)
  powerupSpec : List (ℤ × ℤ × String)

/-- A freshly constructed car (`Car.__init__` with `lane = car_id`). -/
def mkCar (i : ℕ) (bs : ℚ) : Car :=
  { id := i, lane := (i : ℤ), x := (START_X : ℚ),
    y := (i : ℤ) * LANE_HEIGHT + (LANE_HEIGHT - CAR_HEIGHT) / 2,
    base_speed := bs, current_speed := bs,
    finished := false, finish_time := none, is_player := i = 0,
    hasSpeedBoost := false, speedBoostTimer := 0,
    hasShield := false, shieldTimer := 0 }

/-- `RacingGame.initialize_game_objects` with the random draws supplied. -/
def init_game_objects (p : InitParams) :
    List Car × List Obstacle × List PowerUp :=
  ((List.range NUM_CARS).map (fun i => mkCar i (p.speeds.getD i BASE_SPEED)),
   p.obstacleSpec.map (fun q => mkObstacle q.1 q.2),
   p.powerupSpec.map (fun q => mkPowerUp q.1 q.2.1 q.2.2))

/-- `RacingGame.reset_game`: stop workers, re-open the pause gate, clear
winner state and re-create the game objects. -/
def reset_game (g : RacingGame) (p : InitParams) : RacingGame :=
  let objs := init_game_objects p
  { g with race_active := false, pause_event := true, workers := [],
           winner_declared := false, winner := none,
           race_start_time := none,
           cars := objs.1, obstacles := objs.2.1, powerups := objs.2.2,
           game_state := "menu" }

/-- `RacingGame.__init__`: the initial state. -/
def mkGame (p : InitParams) : RacingGame :=
  let objs := init_game_objects p
  { pause_event := true, race_active := false, winner_declared := false,
    cars := objs.1, obstacles := objs.2.1, powerups := objs.2.2,
    winner := none, race_start_time := none, game_state := "menu",
    workers := [] }

/-- The operations that mutate shared state: key-dispatched start, raw
`start_race`, a worker iteration, player input, pause toggle, reset. -/
inductive Op where
  | startKey (now : ℚ)
  | start (now : ℚ)
  | worker (i : ℕ) (dt mult now : ℚ)
  | player (kR kU kD : Bool) (dt now : ℚ)
  | pauseKey
  | resetKey (p : InitParams)

/-- Apply one operation to the shared state. -/
def applyOp (g : RacingGame) : Op → RacingGame
  | .startKey now => start_key g now
  | .start now => start_race g now
  | .worker i dt mult now => (car_movement_iter g i dt mult now).1
  | .player kR kU kD dt now => handle_player_input g kR kU kD dt now
  | .pauseKey => toggle_pause g
  | .resetKey p => reset_game g p

/-- States reachable from construction by any interleaving of the
operations (a superset of the behaviours of the real scheduler). -/
inductive Reachable : RacingGame → Prop where
  | init (p : InitParams) : Reachable (mkGame p)
  | step {g : RacingGame} (op : Op) : Reachable g → Reachable (applyOp g op)

/-- Candidate bounding region of car `i` after displacement `move`
overlaps some other car's current bounding region in the same lane
(the rejection condition described by the specification; the source has
no such check). -/
def sameLaneOverlap (g : RacingGame) (i : ℕ) (move : ℚ) : Bool :=
  match g.cars[i]? with
  | none => false
  | some c =>
    let rect : PyRect := ⟨pyTrunc (c.x + move), c.y, CAR_WIDTH, CAR_HEIGHT⟩
    (List.range g.cars.length).any (fun j =>
      decide (j ≠ i) &&
      (match g.cars[j]? with
       | none => false
       | some d => decide (d.lane = c.lane) && colliderect rect d.get_rect))

/-! ### Field-preservation lemmas -/

lemma powerUpType_pres (c : Car) (t : String) :
    (c.powerUpType t).x = c.x ∧ (c.powerUpType t).finished = c.finished ∧
    (c.powerUpType t).id = c.id ∧ (c.powerUpType t).lane = c.lane ∧
    (c.powerUpType t).y = c.y ∧ (c.powerUpType t).finish_time = c.finish_time := by
  unfold Car.powerUpType
  split_ifs <;> exact ⟨rfl, rfl, rfl, rfl, rfl, rfl⟩

lemma updatePowerUps_pres (c : Car) (dt : ℚ) :
    (c.updatePowerUps dt).x = c.x ∧ (c.updatePowerUps dt).finished = c.finished ∧
    (c.updatePowerUps dt).id = c.id ∧ (c.updatePowerUps dt).lane = c.lane ∧
    (c.updatePowerUps dt).y = c.y := by
  refine ⟨?_, ?_, ?_, ?_, ?_⟩ <;>
    (simp only [Car.updatePowerUps]; split_ifs <;> rfl)

lemma powerupLoop_pres (rect : PyRect) :
    ∀ (ps : List PowerUp) (c : Car),
      ((powerupLoop rect ps c).2).x = c.x ∧
      ((powerupLoop rect ps c).2).finished = c.finished ∧
      ((powerupLoop rect ps c).2).id = c.id ∧
      ((powerupLoop rect ps c).2).lane = c.lane ∧
      ((powerupLoop rect ps c).2).y = c.y
  | [], c => ⟨rfl, rfl, rfl, rfl, rfl⟩
  | p :: rest, c => by
    by_cases hp : (p.active && colliderect rect p.getRectangle) = true
    · have h1 := powerupLoop_pres rect rest (c.powerUpType p.type)
      have h2 := powerUpType_pres c p.type
      simp only [powerupLoop, hp, if_true]
      exact ⟨h1.1.trans h2.1, h1.2.1.trans h2.2.1, h1.2.2.1.trans h2.2.2.1,
             h1.2.2.2.1.trans h2.2.2.2.1, h1.2.2.2.2.trans h2.2.2.2.2.1⟩
    · have hb : (p.active && colliderect rect p.getRectangle) = false := by
        simpa using hp
      simp only [powerupLoop, hb, Bool.false_eq_true, if_false]
      exact powerupLoop_pres rect rest c

/-! ### Loop characterisation lemmas -/

lemma powerupLoop_nohit (rect : PyRect) :
    ∀ (ps : List PowerUp) (c : Car),
      (∀ p ∈ ps, (p.active && colliderect rect p.getRectangle) = false) →
      powerupLoop rect ps c = (ps, c)
  | [], _, _ => rfl
  | p :: rest, c, h => by
    have hp := h p (by simp)
    have ih := powerupLoop_nohit rect rest c (fun q hq => h q (by simp [hq]))
    simp only [powerupLoop, hp, Bool.false_eq_true, if_false, ih]

lemma powerupLoop_append (rect : PyRect) (A B : List PowerUp) (c : Car) :
    powerupLoop rect (A ++ B) c =
      ((powerupLoop rect A c).1 ++
         (powerupLoop rect B (powerupLoop rect A c).2).1,
       (powerupLoop rect B (powerupLoop rect A c).2).2) := by
  induction A generalizing c with
  | nil => simp [powerupLoop]
  | cons p rest ih =>
    simp only [List.cons_append, powerupLoop]
    split
    · simp [ih]
    · simp [ih]

lemma powerupLoop_single (rect : PyRect) (A B : List PowerUp) (p : PowerUp)
    (c : Car)
    (hp : (p.active && colliderect rect p.getRectangle) = true)
    (hA : ∀ q ∈ A, (q.active && colliderect rect q.getRectangle) = false)
    (hB : ∀ q ∈ B, (q.active && colliderect rect q.getRectangle) = false) :
    powerupLoop rect (A ++ p :: B) c =
      (A ++ { p with active := false } :: B, c.powerUpType p.type) := by
  rw [powerupLoop_append, powerupLoop_nohit rect A c hA]
  simp only [powerupLoop, hp, if_true]
  rw [powerupLoop_nohit rect B _ hB]

lemma obstacleLoop_nohit (rect : PyRect) (sh : Bool) (mv : ℚ) :
    ∀ (obs : List Obstacle) (x : ℚ),
      (∀ o ∈ obs, (o.active && colliderect rect o.getRectangle) = false) →
      obstacleLoop rect sh mv obs x = (obs, x)
  | [], _, _ => rfl
  | o :: rest, x, h => by
    have ho := h o (by simp)
    have ih := obstacleLoop_nohit rect sh mv rest x
      (fun q hq => h q (by simp [hq]))
    simp only [obstacleLoop, ho, Bool.false_eq_true, if_false, ih]

lemma obstacleLoop_append (rect : PyRect) (sh : Bool) (mv : ℚ)
    (A B : List Obstacle) (x : ℚ) :
    obstacleLoop rect sh mv (A ++ B) x =
      ((obstacleLoop rect sh mv A x).1 ++
         (obstacleLoop rect sh mv B (obstacleLoop rect sh mv A x).2).1,
       (obstacleLoop rect sh mv B (obstacleLoop rect sh mv A x).2).2) := by
  induction A generalizing x with
  | nil => simp [obstacleLoop]
  | cons o rest ih =>
    simp only [List.cons_append, obstacleLoop]
    split
    · simp [ih]
    · simp [ih]

lemma obstacleLoop_single (rect : PyRect) (sh : Bool) (mv : ℚ)
    (A B : List Obstacle) (o : Obstacle) (x : ℚ)
    (ho : (o.active && colliderect rect o.getRectangle) = true)
    (hA : ∀ q ∈ A, (q.active && colliderect rect q.getRectangle) = false)
    (hB : ∀ q ∈ B, (q.active && colliderect rect q.getRectangle) = false) :
    obstacleLoop rect sh mv (A ++ o :: B) x =
      (A ++ { o with active := false } :: B,
       if sh then x else x - mv * (1/2)) := by
  rw [obstacleLoop_append, obstacleLoop_nohit rect sh mv A x hA]
  simp only [obstacleLoop, ho, if_true]
  split
  · rw [obstacleLoop_nohit rect sh mv B _ hB]
  · rw [obstacleLoop_nohit rect sh mv B _ hB]

lemma obstacleLoop_shield (rect : PyRect) (mv : ℚ) :
    ∀ (obs : List Obstacle) (x : ℚ),
      (obstacleLoop rect true mv obs x).2 = x
  | [], _ => rfl
  | o :: rest, x => by
    by_cases ho : (o.active && colliderect rect o.getRectangle) = true
    · simp only [obstacleLoop, ho, if_true]
      exact obstacleLoop_shield rect mv rest x
    · have hb : (o.active && colliderect rect o.getRectangle) = false := by
        simpa using ho
      simp only [obstacleLoop, hb, Bool.false_eq_true, if_false]
      exact obstacleLoop_shield rect mv rest x

/-- Number of active obstacles hit by the (fixed) car rect in one step. -/
def hitCount (rect : PyRect) (obs : List Obstacle) : ℕ :=
  (obs.filter (fun o => o.active && colliderect rect o.getRectangle)).length

lemma obstacleLoop_count (rect : PyRect) (mv : ℚ) :
    ∀ (obs : List Obstacle) (x : ℚ),
      (obstacleLoop rect false mv obs x).2 =
        x - (hitCount rect obs : ℚ) * (mv * (1/2))
  | [], x => by simp [obstacleLoop, hitCount]
  | o :: rest, x => by
    by_cases ho : (o.active && colliderect rect o.getRectangle) = true
    · have ih := obstacleLoop_count rect mv rest (x - mv * (1/2))
      simp only [obstacleLoop, ho, if_true, Bool.false_eq_true, if_false]
      rw [ih]
      have hcnt : hitCount rect (o :: rest) = hitCount rect rest + 1 := by
        simp [hitCount, List.filter, ho]
      rw [hcnt]
      push_cast
      ring
    · have hb : (o.active && colliderect rect o.getRectangle) = false := by
        simpa using ho
      have ih := obstacleLoop_count rect mv rest x
      simp only [obstacleLoop, hb, Bool.false_eq_true, if_false]
      rw [ih]
      have hcnt : hitCount rect (o :: rest) = hitCount rect rest := by
        simp [hitCount, List.filter, hb]
      rw [hcnt]

/-! ### Projection lemmas for `applyMove` and `car_movement_step` -/

/-- The value of the moving car after the power-up loop of a step (all its
fields except `finished`/`finish_time` are final at this point). -/
def postCollideCar (g : RacingGame) (c : Car) (move : ℚ) : Car :=
  (powerupLoop ⟨pyTrunc (c.x + move), c.y, CAR_WIDTH, CAR_HEIGHT⟩ g.powerups
    { c with x := steppedX g c move }).2

lemma applyMove_scalar (g : RacingGame) (i : ℕ) (c : Car) (move now : ℚ) :
    (applyMove g i c move now).race_active = g.race_active ∧
    (applyMove g i c move now).pause_event = g.pause_event ∧
    (applyMove g i c move now).race_start_time = g.race_start_time ∧
    (applyMove g i c move now).workers = g.workers := by
  refine ⟨?_, ?_, ?_, ?_⟩ <;> (simp only [applyMove]; split_ifs <;> rfl)

lemma applyMove_obstacles (g : RacingGame) (i : ℕ) (c : Car) (move now : ℚ) :
    (applyMove g i c move now).obstacles =
      (obstacleLoop ⟨pyTrunc (c.x + move), c.y, CAR_WIDTH, CAR_HEIGHT⟩
        c.hasShield move g.obstacles (c.x + move)).1 := by
  simp only [applyMove]; split_ifs <;> rfl

lemma applyMove_powerups (g : RacingGame) (i : ℕ) (c : Car) (move now : ℚ) :
    (applyMove g i c move now).powerups =
      (powerupLoop ⟨pyTrunc (c.x + move), c.y, CAR_WIDTH, CAR_HEIGHT⟩
        g.powerups { c with x := steppedX g c move }).1 := by
  simp only [applyMove]; split_ifs <;> rfl

lemma applyMove_cars_self (g : RacingGame) (i : ℕ) (c : Car) (move now : ℚ)
    (hlen : i < g.cars.length) :
    ∃ d, (applyMove g i c move now).cars[i]? = some d ∧
      d.x = (postCollideCar g c move).x ∧
      d.lane = (postCollideCar g c move).lane ∧
      d.y = (postCollideCar g c move).y ∧
      d.id = (postCollideCar g c move).id ∧
      d.hasSpeedBoost = (postCollideCar g c move).hasSpeedBoost ∧
      d.speedBoostTimer = (postCollideCar g c move).speedBoostTimer ∧
      d.current_speed = (postCollideCar g c move).current_speed ∧
      d.hasShield = (postCollideCar g c move).hasShield ∧
      d.shieldTimer = (postCollideCar g c move).shieldTimer ∧
      d.base_speed = (postCollideCar g c move).base_speed := by
  simp only [applyMove]
  split_ifs
  · exact ⟨_, List.getElem?_set_self hlen,
      rfl, rfl, rfl, rfl, rfl, rfl, rfl, rfl, rfl, rfl⟩
  · exact ⟨_, List.getElem?_set_self hlen,
      rfl, rfl, rfl, rfl, rfl, rfl, rfl, rfl, rfl, rfl⟩
  · exact ⟨_, List.getElem?_set_self hlen,
      rfl, rfl, rfl, rfl, rfl, rfl, rfl, rfl, rfl, rfl⟩

lemma applyMove_cars_ne (g : RacingGame) (i : ℕ) (c : Car) (move now : ℚ)
    (j : ℕ) (hij : i ≠ j) :
    (applyMove g i c move now).cars[j]? = g.cars[j]? := by
  simp only [applyMove]; split_ifs <;> exact List.getElem?_set_ne hij

lemma postCollideCar_x (g : RacingGame) (c : Car) (move : ℚ) :
    (postCollideCar g c move).x = steppedX g c move :=
  (powerupLoop_pres _ g.powerups _).1

lemma postCollideCar_finished (g : RacingGame) (c : Car) (move : ℚ) :
    (postCollideCar g c move).finished = c.finished :=
  (powerupLoop_pres _ g.powerups _).2.1

lemma postCollideCar_id (g : RacingGame) (c : Car) (move : ℚ) :
    (postCollideCar g c move).id = c.id :=
  (powerupLoop_pres _ g.powerups _).2.2.1

lemma postCollideCar_lane (g : RacingGame) (c : Car) (move : ℚ) :
    (postCollideCar g c move).lane = c.lane :=
  (powerupLoop_pres _ g.powerups _).2.2.2.1

lemma postCollideCar_y (g : RacingGame) (c : Car) (move : ℚ) :
    (postCollideCar g c move).y = c.y :=
  (powerupLoop_pres _ g.powerups _).2.2.2.2

lemma applyMove_declared (g : RacingGame) (i : ℕ) (c : Car) (move now : ℚ)
    (h : g.winner_declared = true) :
    (applyMove g i c move now).winner = g.winner ∧
    (applyMove g i c move now).winner_declared = true ∧
    (applyMove g i c move now).game_state = g.game_state := by
  have hne : ¬ g.winner_declared = false := by simp [h]
  simp only [applyMove]
  split_ifs with h1
  · exact ⟨rfl, h, rfl⟩
  · exact ⟨rfl, h, rfl⟩

lemma applyMove_first (g : RacingGame) (i : ℕ) (c : Car) (move now : ℚ)
    (hw : g.winner_declared = false)
    (hx : (FINISH_LINE_X : ℚ) ≤ steppedX g c move)
    (hnf : c.finished = false) :
    (applyMove g i c move now).winner = some c.id ∧
    (applyMove g i c move now).winner_declared = true ∧
    (applyMove g i c move now).game_state = "finished" := by
  have hx1 : (FINISH_LINE_X : ℚ) ≤ (postCollideCar g c move).x := by
    rw [postCollideCar_x]; exact hx
  have hf1 : (postCollideCar g c move).finished = false := by
    rw [postCollideCar_finished]; exact hnf
  simp only [applyMove]
  split_ifs with h1
  · refine ⟨congrArg some ?_, rfl, rfl⟩
    show (postCollideCar g c move).id = c.id
    exact postCollideCar_id g c move
  · exact absurd ⟨hx1, hf1⟩ h1

lemma applyMove_finished_car (g : RacingGame) (i : ℕ) (c : Car) (move now : ℚ)
    (hlen : i < g.cars.length)
    (hx : (FINISH_LINE_X : ℚ) ≤ steppedX g c move)
    (hnf : c.finished = false) :
    ∃ d, (applyMove g i c move now).cars[i]? = some d ∧
      d.finished = true ∧
      d.finish_time = some (now - g.race_start_time.getD 0) := by
  have hx1 : (FINISH_LINE_X : ℚ) ≤ (postCollideCar g c move).x := by
    rw [postCollideCar_x]; exact hx
  have hf1 : (postCollideCar g c move).finished = false := by
    rw [postCollideCar_finished]; exact hnf
  simp only [applyMove]
  split_ifs with h1 h2
  · exact ⟨_, List.getElem?_set_self hlen, rfl, rfl⟩
  · exact ⟨_, List.getElem?_set_self hlen, rfl, rfl⟩
  · exact absurd ⟨hx1, hf1⟩ h1

lemma applyMove_Inv (g : RacingGame) (i : ℕ) (c : Car) (move now : ℚ)
    (h : g.game_state = "finished" → g.winner.isSome = true) :
    (applyMove g i c move now).game_state = "finished" →
      (applyMove g i c move now).winner.isSome = true := by
  simp only [applyMove]
  split_ifs
  · intro _; rfl
  · exact h
  · exact h

lemma step_eq_applyMove (g : RacingGame) (i : ℕ) (c : Car) (move now : ℚ)
    (hact : g.race_active = true) (hc : g.cars[i]? = some c) :
    car_movement_step g i move now = (applyMove g i c move now, false) := by
  simp [car_movement_step, hact, hc]

/-! ### Concrete states used as witnesses and counterexamples -/

/-- Fixed random draws used for witness games. -/
def P0 : InitParams := ⟨[], [], []⟩

/-- A car with a chosen position and lane (other fields as freshly built). -/
def carAt (i : ℕ) (x : ℚ) (lane : ℤ) : Car :=
  { mkCar i 2 with
      x := x, lane := lane,
      y := lane * LANE_HEIGHT + (LANE_HEIGHT - CAR_HEIGHT) / 2 }

/-- A racing state reached by starting a race from the initial state. -/
def R2 : RacingGame := start_race (mkGame P0) 0

/-- The state after pressing P once during racing. -/
def PausedR2 : RacingGame := toggle_pause R2

/-- A running race with three spawned workers. -/
def R9 : RacingGame :=
  { pause_event := true, race_active := true, winner_declared := false,
    cars := [mkCar 0 2, mkCar 1 2, mkCar 2 2, mkCar 3 2],
    obstacles := [], powerups := [], winner := none,
    race_start_time := some 0, game_state := "racing", workers := [1, 2, 3] }

/-- A stopped race (running flag cleared) with a worker about to take the
lock. -/
def G8 : RacingGame :=
  { pause_event := true, race_active := false, winner_declared := false,
    cars := [mkCar 0 2, mkCar 1 2], obstacles := [], powerups := [],
    winner := none, race_start_time := some 0, game_state := "racing",
    workers := [1] }

/-! ### Claim theorems -/

/-- C2 (code bug): `toggle_pause` is supposed to flip the pause gate and
phase in both the running and the paused phase, but its whole body is
guarded by `game_state == "racing"`, so in the paused state (gate closed,
phase "paused", reached by one legitimate pause toggle from racing) a
second `toggle_pause` is a no-op: the gate stays closed and the phase
stays "paused", contradicting the function's own Pause/Resume docstring
(the resume branch is unreachable). -/
theorem toggle_pause_stuck_when_paused :
    PausedR2.game_state = "paused" ∧ PausedR2.pause_event = false ∧
    toggle_pause PausedR2 = PausedR2 := by
  with_unfolding_all decide

/-- C8: if the race has been stopped before the worker acquires the state
lock, the lock-held section observes the cleared `race_active` flag first
and breaks out of the loop returning the shared state entirely unchanged:
no position change, no obstacle/pickup deactivation, no finish or winner
commit. -/
theorem stopped_worker_no_mutation (g : RacingGame) (i : ℕ) (move now : ℚ)
    (h : g.race_active = false) :
    car_movement_step g i move now = (g, true) := by
  simp [car_movement_step, h]

/-- Witness for C8 at a concrete stopped state. -/
theorem stopped_worker_no_mutation_witness :
    G8.race_active = false ∧ car_movement_step G8 1 5 3 = (G8, true) :=
  ⟨rfl, stopped_worker_no_mutation G8 1 5 3 rfl⟩

/-- C9 (counterexample): calling the `start_race` method while a race is
already running is not a no-op: it restarts the race clock and spawns a
duplicate worker for every autonomous car. -/
theorem start_race_not_noop_cex :
    R9.game_state = "racing" ∧ R9.race_active = true ∧
    start_race R9 1 ≠ R9 ∧
    (start_race R9 1).workers = [1, 2, 3, 1, 2, 3] ∧
    (start_race R9 1).race_start_time = some 1 ∧
    R9.race_start_time = some 0 := by
  with_unfolding_all decide

/-- C9 (amended): the boundary dispatches the start command (SPACE key in
`run`) only when the phase is "menu", so attempting to start an
already-running race through the control surface is a no-op that leaves
the whole state unchanged; the unguarded `start_race` method itself is
not a no-op (see the counterexample). -/
theorem start_key_noop_when_racing (g : RacingGame) (now : ℚ)
    (h : g.game_state = "racing") :
    start_key g now = g := by
  unfold start_key
  rw [h, if_neg (by decide : ¬ (("racing" : String) = "menu"))]

/-- Witness for the amended C9 at a concrete running state. -/
theorem start_key_noop_when_racing_witness :
    R9.game_state = "racing" ∧ start_key R9 7 = R9 :=
  ⟨rfl, start_key_noop_when_racing R9 7 rfl⟩

/-- A running race whose car 1 is same-lane-overlapped by car 0 at its
candidate position. -/
def G3 : RacingGame :=
  { pause_event := true, race_active := true, winner_declared := false,
    cars := [carAt 0 120 0, carAt 1 100 0],
    obstacles := [], powerups := [], winner := none,
    race_start_time := some 0, game_state := "racing", workers := [1] }

/-- A running race: car at x = 0, one obstacle at x = 5 in its lane. -/
def G4 : RacingGame :=
  { pause_event := true, race_active := true, winner_declared := false,
    cars := [carAt 0 0 0], obstacles := [mkObstacle 5 0], powerups := [],
    winner := none, race_start_time := some 0, game_state := "racing",
    workers := [] }

/-- A running race: car at x = 0, one speed pickup at x = 5 in its lane. -/
def G5 : RacingGame :=
  { pause_event := true, race_active := true, winner_declared := false,
    cars := [carAt 0 0 0], obstacles := [], powerups := [mkPowerUp 5 0 "speed"],
    winner := none, race_start_time := some 0, game_state := "racing",
    workers := [] }

/-- A running race: car at x = 100, three overlapping active obstacles at
x = 110 in its lane. -/
def G6 : RacingGame :=
  { pause_event := true, race_active := true, winner_declared := false,
    cars := [carAt 0 100 0],
    obstacles := [mkObstacle 110 0, mkObstacle 110 0, mkObstacle 110 0],
    powerups := [], winner := none, race_start_time := some 0,
    game_state := "racing", workers := [] }

/-- A running race with both cars one displacement short of the finish
line. -/
def W1 : RacingGame :=
  { pause_event := true, race_active := true, winner_declared := false,
    cars := [carAt 0 895 0, carAt 1 895 1], obstacles := [], powerups := [],
    winner := none, race_start_time := some 0, game_state := "racing",
    workers := [1] }

/-- C3 (counterexample): the code contains no entity-entity collision
check: with car 1's candidate bounding region overlapping car 0's current
bounding region in the same lane, the movement step still commits the full
displacement instead of rejecting it and keeping the pre-step position. -/
theorem entity_overlap_not_rejected_cex :
    sameLaneOverlap G3 1 5 = true ∧
    (G3.cars[1]?).map Car.x = some 100 ∧
    ((car_movement_step G3 1 5 0).1.cars[1]?).map Car.x = some 105 := by
  with_unfolding_all decide

/-- C3 (amended): the movement step performs no entity-entity check at
all: even when the candidate bounding region overlaps another entity's
current bounding region in the same lane, the entity commits the full
displacement (here stated with no obstacle/pickup hits, so the final
position is exactly the pre-step position plus the displacement), and the
obstacle/pickup scans are evaluated at the reached position, not
skipped. -/
theorem no_entity_entity_rejection
    (g : RacingGame) (i : ℕ) (c : Car) (move now : ℚ)
    (hact : g.race_active = true)
    (hc : g.cars[i]? = some c)
    (hov : sameLaneOverlap g i move = true)
    (hobs : ∀ q ∈ g.obstacles,
      (q.active && colliderect ⟨pyTrunc (c.x + move), c.y, CAR_WIDTH, CAR_HEIGHT⟩
        q.getRectangle) = false)
    (hpus : ∀ q ∈ g.powerups,
      (q.active && colliderect ⟨pyTrunc (c.x + move), c.y, CAR_WIDTH, CAR_HEIGHT⟩
        q.getRectangle) = false) :
    ((car_movement_step g i move now).1.cars[i]?).map Car.x =
      some (c.x + move) ∧
    (car_movement_step g i move now).1.obstacles = g.obstacles ∧
    (car_movement_step g i move now).1.powerups = g.powerups := by
  have hlen : i < g.cars.length := (List.getElem?_eq_some.mp hc).1
  rw [step_eq_applyMove g i c move now hact hc]
  obtain ⟨d, hd, hdx, _⟩ := applyMove_cars_self g i c move now hlen
  have hsx : steppedX g c move = c.x + move := by
    unfold steppedX
    rw [obstacleLoop_nohit _ c.hasShield move g.obstacles (c.x + move) hobs]
  refine ⟨?_, ?_, ?_⟩
  · show ((applyMove g i c move now).cars[i]?).map Car.x = some (c.x + move)
    rw [hd]
    simp only [Option.map_some']
    rw [hdx, postCollideCar_x, hsx]
  · show (applyMove g i c move now).obstacles = g.obstacles
    rw [applyMove_obstacles,
      obstacleLoop_nohit _ c.hasShield move g.obstacles (c.x + move) hobs]
  · show (applyMove g i c move now).powerups = g.powerups
    rw [applyMove_powerups,
      powerupLoop_nohit _ g.powerups { c with x := steppedX g c move } hpus]

/-- Witness for the amended C3 at the concrete overlapping state. -/
theorem no_entity_entity_rejection_witness :
    ((car_movement_step G3 1 5 0).1.cars[1]?).map Car.x = some (100 + 5) ∧
    (car_movement_step G3 1 5 0).1.obstacles = G3.obstacles := by
  have h := no_entity_entity_rejection G3 1 (carAt 1 100 0) 5 0 rfl rfl
    (by with_unfolding_all decide) (by with_unfolding_all decide)
    (by with_unfolding_all decide)
  exact ⟨h.1, h.2.1⟩

/-- C4: in a step whose candidate region hits exactly one active obstacle,
the obstacle's `active` flag becomes false regardless of shield; a
shielded entity keeps the full attempted displacement and an unshielded
entity ends at its pre-step position plus exactly half the attempted
displacement. -/
theorem obstacle_hit_effects
    (g : RacingGame) (i : ℕ) (c : Car) (move now : ℚ)
    (A B : List Obstacle) (o : Obstacle)
    (hact : g.race_active = true)
    (hc : g.cars[i]? = some c)
    (hobs : g.obstacles = A ++ o :: B)
    (ho : (o.active && colliderect ⟨pyTrunc (c.x + move), c.y, CAR_WIDTH, CAR_HEIGHT⟩
      o.getRectangle) = true)
    (hA : ∀ q ∈ A, (q.active && colliderect ⟨pyTrunc (c.x + move), c.y, CAR_WIDTH, CAR_HEIGHT⟩
      q.getRectangle) = false)
    (hB : ∀ q ∈ B, (q.active && colliderect ⟨pyTrunc (c.x + move), c.y, CAR_WIDTH, CAR_HEIGHT⟩
      q.getRectangle) = false) :
    (car_movement_step g i move now).1.obstacles =
      A ++ { o with active := false } :: B ∧
    ((car_movement_step g i move now).1.cars[i]?).map Car.x =
      some (if c.hasShield then c.x + move else c.x + move * (1/2)) := by
  have hlen : i < g.cars.length := (List.getElem?_eq_some.mp hc).1
  rw [step_eq_applyMove g i c move now hact hc]
  have hsx : steppedX g c move =
      if c.hasShield then c.x + move else (c.x + move) - move * (1/2) := by
    unfold steppedX
    rw [hobs, obstacleLoop_single _ c.hasShield move A B o _ ho hA hB]
  constructor
  · show (applyMove g i c move now).obstacles = A ++ { o with active := false } :: B
    rw [applyMove_obstacles, hobs,
      obstacleLoop_single _ c.hasShield move A B o _ ho hA hB]
  · obtain ⟨d, hd, hdx, _⟩ := applyMove_cars_self g i c move now hlen
    show ((applyMove g i c move now).cars[i]?).map Car.x = _
    rw [hd]
    simp only [Option.map_some']
    rw [hdx, postCollideCar_x, hsx]
    split_ifs
    · rfl
    · exact congrArg some (by ring)

/-- Witness for C4 at the spec's boundary scenario: position 0,
displacement 5, obstacle at 5, no shield: final position 5/2 and the
obstacle deactivated. -/
theorem obstacle_hit_effects_witness :
    (car_movement_step G4 0 5 0).1.obstacles =
      [{ mkObstacle 5 0 with active := false }] ∧
    ((car_movement_step G4 0 5 0).1.cars[0]?).map Car.x = some (5/2) := by
  have h := obstacle_hit_effects G4 0 (carAt 0 0 0) 5 0 [] [] (mkObstacle 5 0)
    rfl rfl rfl (by with_unfolding_all decide) (by with_unfolding_all decide) (by with_unfolding_all decide)
  refine ⟨h.1, ?_⟩
  rw [h.2]
  with_unfolding_all decide

/-- C5: in a step whose candidate region hits exactly one active pickup,
the pickup's `active` flag becomes false and its effect is applied to the
entity: a speed pickup sets the boost flag, resets the boost duration to
its fixed value 1.5 and sets the current speed to twice the base speed
(twice the current speed whenever the entity was not already boosted);
a shield pickup sets the shield flag and resets the shield duration to
its fixed value 3.  The new timers and speed overwrite whatever effect
state was previously present (no stacking). -/
theorem pickup_effects
    (g : RacingGame) (i : ℕ) (c : Car) (move now : ℚ)
    (A B : List PowerUp) (p : PowerUp)
    (hact : g.race_active = true)
    (hc : g.cars[i]? = some c)
    (hpu : g.powerups = A ++ p :: B)
    (hp : (p.active && colliderect ⟨pyTrunc (c.x + move), c.y, CAR_WIDTH, CAR_HEIGHT⟩
      p.getRectangle) = true)
    (hA : ∀ q ∈ A, (q.active && colliderect ⟨pyTrunc (c.x + move), c.y, CAR_WIDTH, CAR_HEIGHT⟩
      q.getRectangle) = false)
    (hB : ∀ q ∈ B, (q.active && colliderect ⟨pyTrunc (c.x + move), c.y, CAR_WIDTH, CAR_HEIGHT⟩
      q.getRectangle) = false) :
    (car_movement_step g i move now).1.powerups =
      A ++ { p with active := false } :: B ∧
    (p.type = "speed" →
      ((car_movement_step g i move now).1.cars[i]?).map
          (fun d => (d.hasSpeedBoost, d.speedBoostTimer, d.current_speed)) =
        some (true, 3/2, c.base_speed * 2)) ∧
    (p.type = "speed" → c.current_speed = c.base_speed →
      ((car_movement_step g i move now).1.cars[i]?).map Car.current_speed =
        some (2 * c.current_speed)) ∧
    (p.type = "shield" →
      ((car_movement_step g i move now).1.cars[i]?).map
          (fun d => (d.hasShield, d.shieldTimer)) = some (true, 3)) := by
  have hlen : i < g.cars.length := (List.getElem?_eq_some.mp hc).1
  rw [step_eq_applyMove g i c move now hact hc]
  have key : postCollideCar g c move =
      Car.powerUpType { c with x := steppedX g c move } p.type := by
    unfold postCollideCar
    rw [hpu, powerupLoop_single _ A B p _ hp hA hB]
  obtain ⟨d, hd, _, _, _, _, hb, hbt, hcs, hsh, hsht, _⟩ :=
    applyMove_cars_self g i c move now hlen
  refine ⟨?_, ?_, ?_, ?_⟩
  · show (applyMove g i c move now).powerups = A ++ { p with active := false } :: B
    rw [applyMove_powerups, hpu, powerupLoop_single _ A B p _ hp hA hB]
  · intro hsp
    have e1 : (postCollideCar g c move).hasSpeedBoost = true := by
      rw [key, hsp]; rfl
    have e2 : (postCollideCar g c move).speedBoostTimer = 3/2 := by
      rw [key, hsp]; rfl
    have e3 : (postCollideCar g c move).current_speed = c.base_speed * 2 := by
      rw [key, hsp]; rfl
    show ((applyMove g i c move now).cars[i]?).map _ = _
    rw [hd]
    simp only [Option.map_some']
    rw [hb, hbt, hcs, e1, e2, e3]
  · intro hsp hcb
    have e3 : (postCollideCar g c move).current_speed = c.base_speed * 2 := by
      rw [key, hsp]; rfl
    show ((applyMove g i c move now).cars[i]?).map _ = _
    rw [hd]
    simp only [Option.map_some']
    rw [hcs, e3]
    exact congrArg some (by rw [hcb]; ring)
  · intro hshp
    have e4 : (postCollideCar g c move).hasShield = true := by
      rw [key, hshp]; rfl
    have e5 : (postCollideCar g c move).shieldTimer = 3 := by
      rw [key, hshp]; rfl
    show ((applyMove g i c move now).cars[i]?).map _ = _
    rw [hd]
    simp only [Option.map_some']
    rw [hsh, hsht, e4, e5]

/-- Witness for C5: an unboosted car (base speed 2) collects a speed
pickup and ends boosted at speed 4 with the pickup deactivated. -/
theorem pickup_effects_witness :
    (car_movement_step G5 0 5 0).1.powerups =
      [{ mkPowerUp 5 0 "speed" with active := false }] ∧
    ((car_movement_step G5 0 5 0).1.cars[0]?).map
        (fun d => (d.hasSpeedBoost, d.speedBoostTimer, d.current_speed)) =
      some (true, 3/2, 4) := by
  have h := pickup_effects G5 0 (carAt 0 0 0) 5 0 [] [] (mkPowerUp 5 0 "speed")
    rfl rfl rfl (by with_unfolding_all decide) (by with_unfolding_all decide) (by with_unfolding_all decide)
  refine ⟨h.1, ?_⟩
  rw [h.2.1 rfl]
  with_unfolding_all decide

/-- C6 (counterexample): the per-step net displacement can be negative:
with three active overlapping obstacles in the lane and no shield, one
step of displacement 5 from position 100 ends at 97.5 < 100, because each
obstacle hit subtracts half the displacement and the collision rect is
not recomputed after the pull-backs. -/
theorem position_decrease_cex :
    (G6.cars[0]?).map Car.x = some 100 ∧
    ((car_movement_step G6 0 5 0).1.cars[0]?).map Car.x = some (195/2) ∧
    (195 : ℚ)/2 < 100 := by
  with_unfolding_all decide

/-- C6 (amended): the position after a step is at least the pre-step
position whenever the entity is shielded or at most two active obstacles
overlap its candidate region in that step (each unshielded obstacle hit
subtracts half the attempted displacement, so with k hits the net
displacement is move·(1 − k/2), which is negative for k ≥ 3; see the
counterexample). -/
theorem net_displacement_nonneg
    (g : RacingGame) (i : ℕ) (c : Car) (move now : ℚ)
    (hact : g.race_active = true)
    (hc : g.cars[i]? = some c)
    (hmv : 0 ≤ move)
    (hk : c.hasShield = true ∨
      hitCount ⟨pyTrunc (c.x + move), c.y, CAR_WIDTH, CAR_HEIGHT⟩ g.obstacles ≤ 2) :
    ∃ d, (car_movement_step g i move now).1.cars[i]? = some d ∧ c.x ≤ d.x := by
  have hlen : i < g.cars.length := (List.getElem?_eq_some.mp hc).1
  rw [step_eq_applyMove g i c move now hact hc]
  obtain ⟨d, hd, hdx, _⟩ := applyMove_cars_self g i c move now hlen
  refine ⟨d, hd, ?_⟩
  rw [hdx, postCollideCar_x]
  unfold steppedX
  cases hs : c.hasShield with
  | true =>
    rw [obstacleLoop_shield]
    linarith
  | false =>
    rw [obstacleLoop_count]
    have hcnt : hitCount ⟨pyTrunc (c.x + move), c.y, CAR_WIDTH, CAR_HEIGHT⟩
        g.obstacles ≤ 2 := by
      rcases hk with hk | hk
      · rw [hs] at hk; exact absurd hk (by with_unfolding_all decide)
      · exact hk
    have hq : (hitCount ⟨pyTrunc (c.x + move), c.y, CAR_WIDTH, CAR_HEIGHT⟩
        g.obstacles : ℚ) ≤ 2 := by exact_mod_cast hcnt
    have h2 : (0 : ℚ) ≤ (2 - (hitCount ⟨pyTrunc (c.x + move), c.y, CAR_WIDTH, CAR_HEIGHT⟩
        g.obstacles : ℚ)) * (move * (1/2)) :=
      mul_nonneg (by linarith) (by linarith)
    linarith

/-- Witness for the amended C6: one unshielded obstacle hit still yields a
non-negative net displacement. -/
theorem net_displacement_nonneg_witness :
    ∃ d, (car_movement_step G4 0 5 0).1.cars[0]? = some d ∧
      (carAt 0 0 0).x ≤ d.x :=
  net_displacement_nonneg G4 0 (carAt 0 0 0) 5 0 rfl rfl (by with_unfolding_all decide)
    (Or.inr (by with_unfolding_all decide))

/-- C1: the winner is committed at most once.  If car i's lock-held step
crosses the finish line first (winner not yet declared), it becomes the
winner, sets the winner-declared flag and moves the phase to finished;
when car j's own subsequent lock-held step also crosses the finish line,
car j still gets `finished = true` and a finish time, but the winner
reference, the winner-declared flag and the finished phase set by the
first commit are unchanged. -/
theorem winner_set_at_most_once
    (g g1 : RacingGame) (i j : ℕ) (ci cj : Car) (mi mj ni nj : ℚ)
    (hact : g.race_active = true)
    (hw : g.winner_declared = false)
    (hci : g.cars[i]? = some ci)
    (hxi : (FINISH_LINE_X : ℚ) ≤ steppedX g ci mi)
    (hnfi : ci.finished = false)
    (hg1 : g1 = (car_movement_step g i mi ni).1)
    (hcj : g1.cars[j]? = some cj)
    (hxj : (FINISH_LINE_X : ℚ) ≤ steppedX g1 cj mj)
    (hnfj : cj.finished = false) :
    g1.winner = some ci.id ∧ g1.winner_declared = true ∧
    g1.game_state = "finished" ∧
    (car_movement_step g1 j mj nj).1.winner = some ci.id ∧
    (car_movement_step g1 j mj nj).1.winner_declared = true ∧
    (car_movement_step g1 j mj nj).1.game_state = "finished" ∧
    ((car_movement_step g1 j mj nj).1.cars[j]?).map Car.finished = some true ∧
    ((car_movement_step g1 j mj nj).1.cars[j]?).map Car.finish_time =
      some (some (nj - g1.race_start_time.getD 0)) := by
  have e1 : (car_movement_step g i mi ni).1 = applyMove g i ci mi ni := by
    rw [step_eq_applyMove g i ci mi ni hact hci]
  rw [e1] at hg1
  subst hg1
  have hAw := applyMove_first g i ci mi ni hw hxi hnfi
  have hAact : (applyMove g i ci mi ni).race_active = true :=
    (applyMove_scalar g i ci mi ni).1.trans hact
  have e2 : (car_movement_step (applyMove g i ci mi ni) j mj nj).1 =
      applyMove (applyMove g i ci mi ni) j cj mj nj := by
    rw [step_eq_applyMove _ j cj mj nj hAact hcj]
  rw [e2]
  have hdecl := applyMove_declared (applyMove g i ci mi ni) j cj mj nj hAw.2.1
  have hlenj : j < (applyMove g i ci mi ni).cars.length :=
    (List.getElem?_eq_some.mp hcj).1
  obtain ⟨d, hd, hdf, hdt⟩ :=
    applyMove_finished_car (applyMove g i ci mi ni) j cj mj nj hlenj hxj hnfj
  refine ⟨hAw.1, hAw.2.1, hAw.2.2, ?_, hdecl.2.1, ?_, ?_, ?_⟩
  · rw [hdecl.1, hAw.1]
  · rw [hdecl.2.2, hAw.2.2]
  · rw [hd]; simp only [Option.map_some']; rw [hdf]
  · rw [hd]; simp only [Option.map_some']; rw [hdt]

/-- Witness for C1: both cars of `W1` cross the line in consecutive
lock-held steps; the first keeps the win, the second is finished but not
the winner. -/
theorem winner_set_at_most_once_witness :
    (car_movement_step (car_movement_step W1 0 10 0).1 1 10 7).1.winner =
      some 0 ∧
    (car_movement_step (car_movement_step W1 0 10 0).1 1 10 7).1.winner_declared =
      true ∧
    (car_movement_step (car_movement_step W1 0 10 0).1 1 10 7).1.game_state =
      "finished" ∧
    ((car_movement_step (car_movement_step W1 0 10 0).1 1 10 7).1.cars[1]?).map
        Car.finished = some true := by
  have h := winner_set_at_most_once W1 (car_movement_step W1 0 10 0).1 0 1
    (carAt 0 895 0) (carAt 1 895 1) 10 10 0 7 rfl rfl rfl (by with_unfolding_all decide) rfl rfl
    (by with_unfolding_all decide) (by with_unfolding_all decide) rfl
  exact ⟨h.2.2.2.1, h.2.2.2.2.1, h.2.2.2.2.2.1, h.2.2.2.2.2.2.1⟩

/-! ### The finished-implies-winner invariant (C7) -/

/-- The invariant: a finished phase always has a winner reference. -/
def InvW (g : RacingGame) : Prop :=
  g.game_state = "finished" → g.winner.isSome = true

lemma InvW_mkGame (p : InitParams) : InvW (mkGame p) := by
  intro hf
  have e : (mkGame p).game_state = "menu" := rfl
  rw [e] at hf
  exact absurd hf (by decide)

lemma InvW_start_race (g : RacingGame) (now : ℚ) : InvW (start_race g now) := by
  intro hf
  have e : (start_race g now).game_state = "racing" := rfl
  rw [e] at hf
  exact absurd hf (by decide)

lemma InvW_start_key (g : RacingGame) (now : ℚ) (h : InvW g) :
    InvW (start_key g now) := by
  unfold start_key
  split
  · exact InvW_start_race g now
  · exact h

lemma InvW_reset (g : RacingGame) (p : InitParams) : InvW (reset_game g p) := by
  intro hf
  have e : (reset_game g p).game_state = "menu" := rfl
  rw [e] at hf
  exact absurd hf (by decide)

lemma InvW_toggle (g : RacingGame) (h : InvW g) : InvW (toggle_pause g) := by
  have e1 : ("paused" : String) ≠ "finished" := by decide
  have e2 : ("racing" : String) ≠ "finished" := by decide
  unfold toggle_pause
  split
  · split
    · intro hf; exact absurd hf e1
    · intro hf; exact absurd hf e2
  · exact h

lemma InvW_step (g : RacingGame) (i : ℕ) (move now : ℚ) (h : InvW g) :
    InvW ((car_movement_step g i move now).1) := by
  by_cases ha : g.race_active = false
  · have e : car_movement_step g i move now = (g, true) := by
      simp [car_movement_step, ha]
    rw [e]; exact h
  · have ha2 : g.race_active = true := by simpa using ha
    cases hc : g.cars[i]? with
    | none =>
      have e : car_movement_step g i move now = (g, false) := by
        simp [car_movement_step, ha2, hc]
      rw [e]; exact h
    | some c =>
      rw [step_eq_applyMove g i c move now ha2 hc]
      exact applyMove_Inv g i c move now h

lemma InvW_iter (g : RacingGame) (i : ℕ) (dt mult now : ℚ) (h : InvW g) :
    InvW ((car_movement_iter g i dt mult now).1) := by
  cases hc : g.cars[i]? with
  | none =>
    have e : car_movement_iter g i dt mult now = (g, false) := by
      simp [car_movement_iter, hc]
    rw [e]; exact h
  | some c =>
    have e : car_movement_iter g i dt mult now =
        car_movement_step { g with cars := g.cars.set i (c.updatePowerUps dt) }
          i ((c.updatePowerUps dt).current_speed * mult) now := by
      simp [car_movement_iter, hc]
    rw [e]
    exact InvW_step _ i _ now h

lemma InvW_laneUp (g : RacingGame) (k : Bool) (h : InvW g) :
    InvW (laneUpStage g k) := by
  unfold laneUpStage
  split
  · split
    · split
      · exact h
      · exact h
    · exact h
  · exact h

lemma InvW_laneDown (g : RacingGame) (k : Bool) (h : InvW g) :
    InvW (laneDownStage g k) := by
  unfold laneDownStage
  split
  · split
    · split
      · exact h
      · exact h
    · exact h
  · exact h

lemma InvW_player (g : RacingGame) (kR kU kD : Bool) (dt now : ℚ)
    (h : InvW g) : InvW (handle_player_input g kR kU kD dt now) := by
  simp only [handle_player_input]
  split
  · exact h
  · split
    · exact h
    · split
      · exact h
      · apply InvW_laneDown
        apply InvW_laneUp
        split
        · exact applyMove_Inv _ 0 _ _ now h
        · exact h

lemma InvW_applyOp (g : RacingGame) (op : Op) (h : InvW g) :
    InvW (applyOp g op) := by
  cases op with
  | startKey now => exact InvW_start_key g now h
  | start now => exact InvW_start_race g now
  | worker i dt mult now => exact InvW_iter g i dt mult now h
  | player kR kU kD dt now => exact InvW_player g kR kU kD dt now h
  | pauseKey => exact InvW_toggle g h
  | resetKey p => exact InvW_reset g p

/-- C7: in every reachable state (from construction through any
interleaving of start, worker steps, player input, pause toggling and
reset), a finished race phase implies a non-null winner reference. -/
theorem finished_implies_winner (g : RacingGame) (hr : Reachable g)
    (hf : g.game_state = "finished") : g.winner.isSome = true := by
  suffices h : InvW g from h hf
  clear hf
  induction hr with
  | init p => exact InvW_mkGame p
  | step op hr ih => exact InvW_applyOp _ op ih

/-- Fixed draws for a race that finishes in one worker step (car 1 has a
huge base speed; obstacles and pickups sit in lane 3, out of its way). -/
def P7 : InitParams :=
  ⟨[2, 900, 2, 2],
   [(300, 3), (300, 3), (300, 3), (300, 3), (300, 3), (300, 3), (300, 3),
    (300, 3)],
   [(400, 3, "speed"), (400, 3, "speed"), (400, 3, "speed"),
    (400, 3, "speed"), (400, 3, "speed"), (400, 3, "speed")]⟩

/-- The reachable state: construct, start the race, one worker step of
car 1 that crosses the finish line. -/
def W7 : RacingGame :=
  applyOp (applyOp (mkGame P7) (.start 0)) (.worker 1 0 1 0)

/-- Witness for C7: `W7` is reachable, its phase is finished and its
winner is non-null. -/
theorem finished_implies_winner_witness :
    W7.game_state = "finished" ∧ W7.winner.isSome = true :=
  ⟨by with_unfolding_all decide,
   finished_implies_winner W7
     (Reachable.step _ (Reachable.step _ (Reachable.init P7)))
     (by with_unfolding_all decide)⟩

/-! ### Player lane bounds (C10) -/

/-- One polled frame of player input. -/
structure KeyFrame where
  kRight : Bool
  kUp : Bool
  kDown : Bool
  dt : ℚ
  now : ℚ

/-- A sequence of `handle_player_input` calls, one per polled frame. -/
def playerInputSeq (g : RacingGame) : List KeyFrame → RacingGame
  | [] => g
  | k :: rest =>
    playerInputSeq (handle_player_input g k.kRight k.kUp k.kDown k.dt k.now)
      rest

/-- The player car's lane index lies in [0, TRACK_LANES - 1]. -/
def laneInRange (g : RacingGame) : Prop :=
  ∀ c, g.cars[0]? = some c → 0 ≤ c.lane ∧ c.lane ≤ TRACK_LANES - 1

lemma laneInRange_setCar (g : RacingGame) (p : Car)
    (hlen : 0 < g.cars.length)
    (hp : 0 ≤ p.lane ∧ p.lane ≤ TRACK_LANES - 1) :
    laneInRange { g with cars := g.cars.set 0 p } := by
  intro c hc
  have e : ({ g with cars := g.cars.set 0 p } : RacingGame).cars =
      g.cars.set 0 p := rfl
  rw [e, List.getElem?_set_self hlen] at hc
  obtain rfl := Option.some.inj hc
  exact hp

lemma laneUpStage_range (g : RacingGame) (k : Bool) (h : laneInRange g) :
    laneInRange (laneUpStage g k) := by
  unfold laneUpStage
  split
  · split
    · next p hp =>
      obtain ⟨h0, h3⟩ := h p hp
      split
      · next hl =>
        apply laneInRange_setCar _ _ (List.getElem?_eq_some.mp hp).1
        have e : (setLane p (p.lane - 1)).lane = p.lane - 1 := rfl
        rw [e]
        omega
      · exact h
    · exact h
  · exact h

lemma laneDownStage_range (g : RacingGame) (k : Bool) (h : laneInRange g) :
    laneInRange (laneDownStage g k) := by
  unfold laneDownStage
  split
  · split
    · next p hp =>
      obtain ⟨h0, h3⟩ := h p hp
      split
      · next hl =>
        apply laneInRange_setCar _ _ (List.getElem?_eq_some.mp hp).1
        have e : (setLane p (p.lane + 1)).lane = p.lane + 1 := rfl
        rw [e]
        omega
      · exact h
    · exact h
  · exact h

lemma handle_player_input_range (g : RacingGame) (kR kU kD : Bool)
    (dt now : ℚ) (h : laneInRange g) :
    laneInRange (handle_player_input g kR kU kD dt now) := by
  simp only [handle_player_input]
  split
  · exact h
  · split
    · exact h
    · next pc0 hpc0 =>
      split
      · exact h
      · apply laneDownStage_range
        apply laneUpStage_range
        have hlen : 0 < g.cars.length := (List.getElem?_eq_some.mp hpc0).1
        have hb := h pc0 hpc0
        have hlane : (pc0.updatePowerUps dt).lane = pc0.lane :=
          (updatePowerUps_pres pc0 dt).2.2.2.1
        have hg1 : laneInRange
            { g with cars := g.cars.set 0 (pc0.updatePowerUps dt) } := by
          apply laneInRange_setCar _ _ hlen
          rw [hlane]; exact hb
        split
        · intro c hc
          have hlen1 : 0 <
              ({ g with cars := g.cars.set 0 (pc0.updatePowerUps dt) } :
                RacingGame).cars.length := by
            simpa using hlen
          obtain ⟨d, hd, _, hdl, _⟩ := applyMove_cars_self
            { g with cars := g.cars.set 0 (pc0.updatePowerUps dt) } 0
            (pc0.updatePowerUps dt)
            ((pc0.updatePowerUps dt).current_speed * (3/2)) now hlen1
          rw [hd] at hc
          obtain rfl := Option.some.inj hc
          rw [hdl, postCollideCar_lane, hlane]
          exact hb
        · exact hg1

lemma playerInputSeq_range (ks : List KeyFrame) :
    ∀ g : RacingGame, laneInRange g → laneInRange (playerInputSeq g ks) := by
  induction ks with
  | nil => intro g h; exact h
  | cons k rest ih =>
    intro g h
    exact ih _ (handle_player_input_range g _ _ _ _ _ h)

/-- C10: the player car's lane index stays within [0, TRACK_LANES - 1]
across every sequence of polled input frames, and at the boundaries the
guarded lane commands are no-ops: a lane-up at lane 0 and a lane-down at
the highest lane leave both the lane and the derived vertical position
unchanged. -/
theorem player_lane_bounds
    (g : RacingGame) (ks : List KeyFrame) (pc : Car) (dt now : ℚ)
    (hpc : g.cars[0]? = some pc)
    (h0 : 0 ≤ pc.lane) (h3 : pc.lane ≤ TRACK_LANES - 1) :
    (∀ c, (playerInputSeq g ks).cars[0]? = some c →
      0 ≤ c.lane ∧ c.lane ≤ TRACK_LANES - 1) ∧
    (pc.lane = 0 →
      ((handle_player_input g false true false dt now).cars[0]?).map
          (fun c => (c.lane, c.y)) = some (pc.lane, pc.y)) ∧
    (pc.lane = TRACK_LANES - 1 →
      ((handle_player_input g false false true dt now).cars[0]?).map
          (fun c => (c.lane, c.y)) = some (pc.lane, pc.y)) := by
  have hrange : laneInRange g := by
    intro c hc
    rw [hpc] at hc
    obtain rfl := Option.some.inj hc
    exact ⟨h0, h3⟩
  have hlen : 0 < g.cars.length := (List.getElem?_eq_some.mp hpc).1
  have e3 : ({ g with cars := g.cars.set 0 (pc.updatePowerUps dt) } :
      RacingGame).cars[0]? = some (pc.updatePowerUps dt) := by
    have e : ({ g with cars := g.cars.set 0 (pc.updatePowerUps dt) } :
        RacingGame).cars = g.cars.set 0 (pc.updatePowerUps dt) := rfl
    rw [e, List.getElem?_set_self hlen]
  have hUl : (pc.updatePowerUps dt).lane = pc.lane :=
    (updatePowerUps_pres pc dt).2.2.2.1
  have hUy : (pc.updatePowerUps dt).y = pc.y :=
    (updatePowerUps_pres pc dt).2.2.2.2
  refine ⟨playerInputSeq_range ks g hrange, ?_, ?_⟩
  · intro hl0
    by_cases hg : g.game_state ≠ "racing" ∨ g.race_active = false
    · have e : handle_player_input g false true false dt now = g := by
        unfold handle_player_input
        rw [if_pos hg]
      rw [e, hpc]; rfl
    · by_cases hf : pc.finished = true
      · have e : handle_player_input g false true false dt now = g := by
          simp [handle_player_input, hg, hpc, hf]
        rw [e, hpc]; rfl
      · have hfb : pc.finished = false := by simpa using hf
        have e : handle_player_input g false true false dt now =
            laneDownStage (laneUpStage
              { g with cars := g.cars.set 0 (pc.updatePowerUps dt) } true)
              false := by
          simp [handle_player_input, hg, hpc, hfb]
        have e4 : laneUpStage
            { g with cars := g.cars.set 0 (pc.updatePowerUps dt) } true =
            { g with cars := g.cars.set 0 (pc.updatePowerUps dt) } := by
          simp [laneUpStage, e3, hUl, hl0]
        have e5 : laneDownStage
            { g with cars := g.cars.set 0 (pc.updatePowerUps dt) } false =
            { g with cars := g.cars.set 0 (pc.updatePowerUps dt) } := rfl
        rw [e, e4, e5, e3]
        simp only [Option.map_some']
        exact congrArg some (by rw [hUl, hUy])
  · intro hl3
    by_cases hg : g.game_state ≠ "racing" ∨ g.race_active = false
    · have e : handle_player_input g false false true dt now = g := by
        unfold handle_player_input
        rw [if_pos hg]
      rw [e, hpc]; rfl
    · by_cases hf : pc.finished = true
      · have e : handle_player_input g false false true dt now = g := by
          simp [handle_player_input, hg, hpc, hf]
        rw [e, hpc]; rfl
      · have hfb : pc.finished = false := by simpa using hf
        have e : handle_player_input g false false true dt now =
            laneDownStage (laneUpStage
              { g with cars := g.cars.set 0 (pc.updatePowerUps dt) } false)
              true := by
          simp [handle_player_input, hg, hpc, hfb]
        have e4 : laneUpStage
            { g with cars := g.cars.set 0 (pc.updatePowerUps dt) } false =
            { g with cars := g.cars.set 0 (pc.updatePowerUps dt) } := rfl
        have e5 : laneDownStage
            { g with cars := g.cars.set 0 (pc.updatePowerUps dt) } true =
            { g with cars := g.cars.set 0 (pc.updatePowerUps dt) } := by
          simp [laneDownStage, e3, hUl, hl3]
        rw [e, e4, e5, e3]
        simp only [Option.map_some']
        exact congrArg some (by rw [hUl, hUy])

/-- Witness for C10: a lane-up frame at lane 0 in a running race leaves
the lane and vertical position unchanged, and the invariant holds after
the frame. -/
theorem player_lane_bounds_witness :
    (∀ c, (playerInputSeq R9 [⟨false, true, false, 0, 0⟩]).cars[0]? = some c →
      0 ≤ c.lane ∧ c.lane ≤ TRACK_LANES - 1) ∧
    ((handle_player_input R9 false true false 0 0).cars[0]?).map
        (fun c => (c.lane, c.y)) = some ((mkCar 0 2).lane, (mkCar 0 2).y) := by
  have h := player_lane_bounds R9 [⟨false, true, false, 0, 0⟩] (mkCar 0 2) 0 0
    rfl (by with_unfolding_all decide) (by with_unfolding_all decide)
  exact ⟨h.1, h.2.1 rfl⟩

end Racing
